import Mathlib

/-!
Verification development for the DadGPT conversation store
(`src/app/page.tsx`, second UI variant, the one with `status`/`version`
fields on messages — the variant the specification's data model follows).

Strings are modelled as `List Char`. External inputs that the source reads
from the environment (`crypto.randomUUID()`, `Date.now()`, the persisted
local-storage value) are passed in as explicit parameters. Timers created
by `setTimeout` are modelled as a queue of scheduled resolutions on a
system state `Sys`; `timersRef` bookkeeping in the source only stores the
handle of the most recently scheduled timer per message id and never
cancels an earlier one on regenerate, which the model reflects by simply
appending to the queue.
-/

namespace DadGPT

abbrev Str := List Char

/-- Whitespace predicate used by the source's `trim()` and `split(/\s+/)`
(restricted to the ASCII whitespace characters). -/
def isWs (c : Char) : Bool :=
  c = ' ' || c = '\t' || c = '\n' || c = '\r' || c = '\x0b' || c = '\x0c'

/-- Remove leading whitespace (left half of JS `String.prototype.trim`). -/
def trimLeft (s : Str) : Str := s.dropWhile isWs

/-- Remove trailing whitespace (right half of JS `String.prototype.trim`). -/
def trimRight : Str → Str
  | [] => []
  | c :: cs =>
    match trimRight cs with
    | [] => if isWs c then [] else [c]
    | r => c :: r

/-- JS `String.prototype.trim`. -/
def trim (s : Str) : Str := trimRight (trimLeft s)

/-- Worker for JS `String.prototype.split(/\s+/)`.
`skipping = true` means the scanner is inside a whitespace separator run
whose preceding token has already been emitted; `acc` is the reversed
current token. -/
def splitWsM : Str → Bool → Str → List Str
  | [], skipping, acc => if skipping then [[]] else [acc.reverse]
  | c :: cs, skipping, acc =>
    if skipping then
      if isWs c then splitWsM cs true []
      else splitWsM cs false [c]
    else
      if isWs c then acc.reverse :: splitWsM cs true []
      else splitWsM cs false (c :: acc)

/-- JS `content.split(/\s+/)`: splits on maximal whitespace runs, with an
empty leading (trailing) piece when the string starts (ends) with
whitespace, exactly as the JS regex split behaves. -/
def splitWs (s : Str) : List Str := splitWsM s false []

def ASSISTANT_REPLY : Str := "ok 👍".data
def DEFAULT_CHAT_TITLE : Str := "New chat".data

inductive Role
  | user
  | assistant
deriving DecidableEq

/-- Source: `status: "thinking" | "done"`; the spec calls these states
`pending` and `complete` respectively. -/
inductive Status
  | thinking
  | done
deriving DecidableEq

structure Message where
  id : Str
  role : Role
  content : Str
  createdAt : Nat
  liked : Bool
  disliked : Bool
  status : Status
  version : Nat
deriving DecidableEq

structure Chat where
  id : Str
  title : Str
  messages : List Message
  createdAt : Nat
  updatedAt : Nat
  isCustomTitle : Bool
deriving DecidableEq

/-- Source `buildTitleFromMessage` (second variant): trim, split on
whitespace runs, join the first three words with single spaces, append a
single `…` when more words existed. -/
def buildTitleFromMessage (content : Str) : Str :=
  let cleaned := trim content
  if cleaned = [] then DEFAULT_CHAT_TITLE
  else
    let words := splitWs cleaned
    let firstThree := List.intercalate [' '] (words.take 3)
    if words.length > 3 then firstThree ++ ['…'] else firstThree

/-- Tokenisation as the claim describes it: split the trimmed text on runs
of whitespace and discard empty tokens. Stated from the claim's words, for
comparison against `buildTitleFromMessage`. -/
def tokensOf (s : Str) : List Str :=
  (splitWs (trim s)).filter (fun t => !t.isEmpty)

/-- Source `createChat` (`createId()` and `Date.now()` passed in). -/
def createChat (id : Str) (now : Nat) : Chat :=
  { id := id
    title := DEFAULT_CHAT_TITLE
    messages := []
    createdAt := now
    updatedAt := now
    isCustomTitle := false }

/-- Source `createAssistantMessage` (second variant): empty content,
`thinking` status, version 0. -/
def createAssistantMessage (id : Str) (now : Nat) : Message :=
  { id := id
    role := Role.assistant
    content := []
    createdAt := now
    liked := false
    disliked := false
    status := Status.thinking
    version := 0 }

/-- The user message literal built inside `handleSubmit`. -/
def mkUserMessage (id : Str) (content : Str) (now : Nat) : Message :=
  { id := id
    role := Role.user
    content := content
    createdAt := now
    liked := false
    disliked := false
    status := Status.done
    version := 0 }

/-- The per-chat update `handleSubmit` passes to `setChats`, applied to one
chat, given the already-trimmed input text. -/
def sendMessageChat (chat : Chat) (convId trimmed uid aid : Str) (now : Nat) : Chat :=
  if chat.id ≠ convId then chat
  else
    let userMessage := mkUserMessage uid trimmed now
    let assistantMessage := createAssistantMessage aid now
    let nextMessages := chat.messages ++ [userMessage, assistantMessage]
    let title :=
      if chat.isCustomTitle then chat.title
      else
        match nextMessages.find? (fun m => m.role == Role.user) with
        | some firstUser => buildTitleFromMessage firstUser.content
        | none => chat.title
    { chat with title := title, messages := nextMessages, updatedAt := now }

/-- Collection-level effect of `handleSubmit` (the spec's `sendMessage`):
no-op when the trimmed input is empty, otherwise map the per-chat update
over the collection. -/
def sendMessage (chats : List Chat) (convId input uid aid : Str) (now : Nat) : List Chat :=
  if trim input = [] then chats
  else chats.map (fun chat => sendMessageChat chat convId (trim input) uid aid now)

inductive ReactionKind
  | like
  | dislike
deriving DecidableEq

/-- Per-message body of the source `toggleReaction` map. -/
def toggleReactionMessage (m : Message) (messageId : Str) (kind : ReactionKind) : Message :=
  if m.id ≠ messageId ∨ m.role ≠ Role.assistant then m
  else
    match kind with
    | ReactionKind.like =>
      let liked := !m.liked
      { m with liked := liked, disliked := if liked then false else m.disliked }
    | ReactionKind.dislike =>
      let disliked := !m.disliked
      { m with disliked := disliked, liked := if disliked then false else m.liked }

/-- Collection-level effect of the source `toggleReaction` (note: it does
not touch `updatedAt`). -/
def toggleReactionChats (chats : List Chat) (currentChatId messageId : Str)
    (kind : ReactionKind) : List Chat :=
  chats.map fun chat =>
    if chat.id ≠ currentChatId then chat
    else { chat with messages := chat.messages.map (fun m => toggleReactionMessage m messageId kind) }

/-- Per-message body of the source `handleRegenerate` map (no role check
in the source: any message with a matching id is reset). -/
def regenerateMessage (m : Message) (messageId : Str) : Message :=
  if m.id = messageId then
    { m with
      content := []
      status := Status.thinking
      liked := false
      disliked := false
      version := m.version + 1 }
  else m

/-- Collection-level effect of the source `handleRegenerate` (note: it does
not touch `updatedAt`). -/
def handleRegenerateChats (chats : List Chat) (currentChatId messageId : Str) : List Chat :=
  chats.map fun chat =>
    if chat.id ≠ currentChatId then chat
    else { chat with messages := chat.messages.map (fun m => regenerateMessage m messageId) }

/-- Body of the `setTimeout` callback inside `startAssistantResponse`: on
the chat with the captured id, set the message with the captured id to the
fixed reply, status `done`, `version + 1`, and refresh `updatedAt`. The
callback captures no version, so it applies unconditionally when it fires. -/
def resolveAssistantChats (chats : List Chat) (chatId messageId : Str) (now : Nat) : List Chat :=
  chats.map fun chat =>
    if chat.id ≠ chatId then chat
    else
      { chat with
        messages := chat.messages.map fun m =>
          if m.id = messageId then
            { m with content := ASSISTANT_REPLY, status := Status.done, version := m.version + 1 }
          else m
        updatedAt := now }

/-- Collection-level effect of the source `commitRename` once its
editing-state guard has passed: `renameValue.trim() || DEFAULT_CHAT_TITLE`,
`isCustomTitle := true` on the matching chat. -/
def commitRenameChats (chats : List Chat) (editingChatId renameValue : Str) : List Chat :=
  let nextTitle := if trim renameValue = [] then DEFAULT_CHAT_TITLE else trim renameValue
  chats.map fun chat =>
    if chat.id = editingChatId then { chat with title := nextTitle, isCustomTitle := true }
    else chat

/-- The component state commitRename touches or reads: the chat collection,
the active-chat selection, and the rename editing state. -/
structure Store where
  chats : List Chat
  activeChatId : Option Str
  editingChatId : Option Str
  renameValue : Str
deriving DecidableEq

/-- Source `commitRename` in full: no-op unless a rename is being edited
for exactly this chat id; then rewrite the chat collection and clear the
editing state. It never touches `activeChatId`. -/
def commitRename (s : Store) (chatId : Str) : Store :=
  match s.editingChatId with
  | none => s
  | some eid =>
    if eid ≠ chatId then s
    else
      { s with
        chats := commitRenameChats s.chats eid s.renameValue
        editingChatId := none
        renameValue := [] }

/-- Persisted message shape: the optional fields may be absent in older
persisted data (`liked`, `disliked`, `status`, `version`). -/
structure PersistedMessage where
  id : Str
  role : Role
  content : Str
  createdAt : Nat
  liked : Option Bool
  disliked : Option Bool
  status : Option Status
  version : Option Nat
deriving DecidableEq

/-- Persisted chat shape: `isCustomTitle` may be absent. -/
structure PersistedChat where
  id : Str
  title : Str
  messages : List PersistedMessage
  createdAt : Nat
  updatedAt : Nat
  isCustomTitle : Option Bool
deriving DecidableEq

/-- The outcome of reading and parsing the local-storage value:
`absent` when no value is stored under the key, `malformed` when
`JSON.parse` throws or the parsed value is not an array, otherwise the
parsed array of persisted chats. -/
inductive Persisted
  | absent
  | malformed
  | value (chats : List PersistedChat)
deriving DecidableEq

/-- Defaulting of one persisted message as in the source `loadChats`:
`liked ?? false`, `disliked ?? false`, `status ?? "done"`, `version ?? 0`. -/
def defaultMessage (m : PersistedMessage) : Message :=
  { id := m.id
    role := m.role
    content := m.content
    createdAt := m.createdAt
    liked := m.liked.getD false
    disliked := m.disliked.getD false
    status := m.status.getD Status.done
    version := m.version.getD 0 }

/-- Defaulting of one persisted chat as in the source `loadChats`:
`isCustomTitle ?? false`, messages defaulted field-wise. -/
def defaultChat (c : PersistedChat) : Chat :=
  { id := c.id
    title := c.title
    messages := c.messages.map defaultMessage
    createdAt := c.createdAt
    updatedAt := c.updatedAt
    isCustomTitle := c.isCustomTitle.getD false }

/-- Source `loadChats`: fall back to a single fresh chat when the stored
value is absent, malformed, or an empty array; otherwise apply the
defaulting map. The fresh chat `createChat()` would build is passed in. -/
def loadChats (saved : Persisted) (fresh : Chat) : List Chat :=
  match saved with
  | Persisted.absent => [fresh]
  | Persisted.malformed => [fresh]
  | Persisted.value parsed =>
    if parsed = [] then [fresh] else parsed.map defaultChat

/-- System state: the chat collection plus the queue of scheduled reply
resolutions, each recorded as the (chat id, message id) pair its callback
captured, in scheduling order. `startAssistantResponse` appends to this
queue; nothing in the source ever calls `clearTimeout` on an earlier timer
when a new one is scheduled for the same message id (`timersRef` merely
overwrites the stored handle). -/
structure Sys where
  chats : List Chat
  pendingTimers : List (Str × Str)
deriving DecidableEq

/-- Source `handleSubmit` at system level: guard on empty trimmed input,
apply the collection update, then `startAssistantResponse` schedules a
resolution for the new assistant message. -/
def handleSubmitSys (s : Sys) (convId input uid aid : Str) (now : Nat) : Sys :=
  if trim input = [] then s
  else
    { chats := sendMessage s.chats convId input uid aid now
      pendingTimers := s.pendingTimers ++ [(convId, aid)] }

/-- Source `handleRegenerate` at system level: reset the message and
schedule a fresh resolution via `startAssistantResponse`. The previously
scheduled timer for the same message id is NOT cancelled (the source only
overwrites `timersRef.current[messageId]`), so it stays in the queue. -/
def handleRegenerate (s : Sys) (currentChatId messageId : Str) : Sys :=
  { chats := handleRegenerateChats s.chats currentChatId messageId
    pendingTimers := s.pendingTimers ++ [(currentChatId, messageId)] }

/-- Fire the next scheduled resolution. The delays drawn by
`thinkingDelay()` overlap across timers scheduled at different times, so
an earlier-scheduled timer may reach its deadline first; firing in queue
order realises that schedule. -/
def fireNextTimer (s : Sys) (now : Nat) : Sys :=
  match s.pendingTimers with
  | [] => s
  | (cid, mid) :: rest =>
    { chats := resolveAssistantChats s.chats cid mid now
      pendingTimers := rest }

/-! Concrete ids and scenario states used by closed theorems. -/

def cidEx : Str := "c".data
def uidEx : Str := "u".data
def aidEx : Str := "a".data

/-- A concrete assistant message. -/
def mEx : Message :=
  { id := "m".data
    role := Role.assistant
    content := ASSISTANT_REPLY
    createdAt := 0
    liked := false
    disliked := false
    status := Status.done
    version := 1 }

/-- A concrete chat holding `mEx`, with a recognisable `updatedAt`. -/
def chatEx : Chat :=
  { id := cidEx
    title := DEFAULT_CHAT_TITLE
    messages := [mEx]
    createdAt := 0
    updatedAt := 5
    isCustomTitle := false }

/-- Empty store after `createConversation()`. -/
def sysStart : Sys := { chats := [createChat cidEx 0], pendingTimers := [] }

/-- After `sendMessage` on the fresh chat: one resolution scheduled. -/
def sysAfterSend : Sys := handleSubmitSys sysStart cidEx "hi".data uidEx aidEx 1

/-- After regenerating the assistant reply before its first resolution
fired: a second resolution is scheduled, the first is still pending. -/
def sysAfterRegen : Sys := handleRegenerate sysAfterSend cidEx aidEx

/-- After the FIRST (stale, pre-regenerate) timer fires. -/
def sysAfterStale : Sys := fireNextTimer sysAfterRegen 2

/-- Scenario C8: `createConversation()` on an empty store. -/
def chatsAfterCreate : List Chat := [createChat cidEx 0]

/-- Scenario C8: then `sendMessage(id, "  hello world  ")`. -/
def chatsAfterSend : List Chat :=
  sendMessage chatsAfterCreate cidEx "  hello world  ".data uidEx aidEx 1

/-- Scenario C8: then the scheduled resolution fires. -/
def chatsAfterResolve : List Chat := resolveAssistantChats chatsAfterSend cidEx aidEx 2

/-- A finite sequence of `toggleReaction` calls applied to one message. -/
def applyToggles (m : Message) (mid : Str) (ks : List ReactionKind) : Message :=
  ks.foldl (fun acc k => toggleReactionMessage acc mid k) m

/-- A concrete store in rename-editing state for `chatEx`. -/
def storeEx : Store :=
  { chats := [chatEx]
    activeChatId := some cidEx
    editingChatId := some cidEx
    renameValue := "  Dad  ".data }

/-- A concrete persisted message with some optional fields absent. -/
def pmEx : PersistedMessage :=
  { id := "m".data
    role := Role.assistant
    content := "hi".data
    createdAt := 3
    liked := none
    disliked := some true
    status := none
    version := some 7 }

/-- A concrete persisted chat with `isCustomTitle` absent. -/
def pcEx : PersistedChat :=
  { id := cidEx
    title := "T".data
    messages := [pmEx]
    createdAt := 1
    updatedAt := 2
    isCustomTitle := none }

/-! ## Helper lemmas about trimming and whitespace splitting -/

theorem dropWhile_head_not_ws :
    ∀ (l : Str) (c : Char) (cs : Str), l.dropWhile isWs = c :: cs → isWs c = false := by
  intro l
  induction l with
  | nil => intro c cs h; simp [List.dropWhile] at h
  | cons a as ih =>
    intro c cs h
    rw [List.dropWhile_cons] at h
    cases hws : isWs a with
    | true => rw [hws] at h; simp at h; exact ih c cs h
    | false =>
      rw [hws] at h
      simp at h
      rw [← h.1]
      exact hws

theorem trimRight_cons (c : Char) (cs : Str) :
    trimRight (c :: cs) =
      match trimRight cs with
      | [] => if isWs c then [] else [c]
      | r => c :: r := rfl

theorem trimRight_getLast_not_ws :
    ∀ (l : Str) (x : Char), (trimRight l).getLast? = some x → isWs x = false := by
  intro l
  induction l with
  | nil => intro x h; simp [trimRight] at h
  | cons c cs ih =>
    intro x h
    rw [trimRight_cons] at h
    cases hcs : trimRight cs with
    | nil =>
      rw [hcs] at h
      cases hws : isWs c with
      | true => rw [hws] at h; simp at h
      | false =>
        rw [hws] at h
        simp at h
        rw [← h]
        exact hws
    | cons d ds =>
      rw [hcs] at h
      rw [List.getLast?_cons_cons] at h
      exact ih x (hcs ▸ h)

theorem trimRight_head_or :
    ∀ l : Str, trimRight l = [] ∨ (trimRight l).head? = l.head? := by
  intro l
  cases l with
  | nil => left; rfl
  | cons c cs =>
    rw [trimRight_cons]
    cases hcs : trimRight cs with
    | nil =>
      cases hws : isWs c with
      | true => left; simp [hws]
      | false => right; simp [hws]
    | cons d ds => right; rfl

theorem trim_head_not_ws :
    ∀ (s : Str) (c : Char) (cs : Str), trim s = c :: cs → isWs c = false := by
  intro s c cs h
  rcases trimRight_head_or (trimLeft s) with hnil | hhead
  · rw [trim, hnil] at h; exact absurd h (by simp)
  · rw [trim] at h
    rw [h] at hhead
    simp at hhead
    cases htl : trimLeft s with
    | nil => rw [htl] at hhead; simp at hhead
    | cons a as =>
      rw [htl] at hhead
      simp at hhead
      rw [hhead]
      exact dropWhile_head_not_ws s a as htl

theorem trim_getLast_not_ws (s : Str) :
    ∀ x : Char, (trim s).getLast? = some x → isWs x = false :=
  fun x h => trimRight_getLast_not_ws (trimLeft s) x h

theorem splitWsM_ne_nil (s : Str) : ∀ (b : Bool) (acc : Str), splitWsM s b acc ≠ [] := by
  induction s with
  | nil => intro b acc; cases b <;> simp [splitWsM]
  | cons c cs ih =>
    intro b acc
    cases b <;> cases hws : isWs c <;> simp [splitWsM, hws] <;> apply ih

theorem getLast_not_ws_tail (c : Char) (cs : Str)
    (h : ∀ x, (c :: cs).getLast? = some x → isWs x = false) :
    ∀ x, cs.getLast? = some x → isWs x = false := by
  intro x hx
  cases cs with
  | nil => simp at hx
  | cons d ds => exact h x (by rw [List.getLast?_cons_cons]; exact hx)

theorem cs_ne_nil_of_ws_head (c : Char) (cs : Str) (hws : isWs c = true)
    (h : ∀ x, (c :: cs).getLast? = some x → isWs x = false) : cs ≠ [] := by
  intro hnil
  subst hnil
  have := h c (List.getLast?_singleton c)
  rw [hws] at this
  exact absurd this (by simp)

/-- Every token produced by the whitespace split is non-empty, provided the
scanned string has no trailing whitespace and the scanner state is sound:
in skipping mode there is still input left, and in accumulating mode with
an empty accumulator the input is non-empty and starts with a
non-whitespace character. -/
theorem splitWsM_all_ne_nil :
    ∀ (s : Str) (b : Bool) (acc : Str),
      (∀ x, s.getLast? = some x → isWs x = false) →
      (b = true → s ≠ []) →
      (b = false → acc = [] → s ≠ [] ∧ ∀ c cs, s = c :: cs → isWs c = false) →
      ∀ t ∈ splitWsM s b acc, t ≠ [] := by
  intro s
  induction s with
  | nil =>
    intro b acc hlast hskip hstart t ht
    cases b with
    | true => exact absurd rfl (hskip rfl)
    | false =>
      simp [splitWsM] at ht
      subst ht
      by_cases hacc : acc = []
      · exact absurd rfl (hstart rfl hacc).1
      · simpa [List.reverse_eq_nil_iff] using hacc
  | cons c cs ih =>
    intro b acc hlast hskip hstart t ht
    have hlast' := getLast_not_ws_tail c cs hlast
    cases b with
    | true =>
      cases hws : isWs c with
      | true =>
        rw [show splitWsM (c :: cs) true acc = splitWsM cs true [] by simp [splitWsM, hws]] at ht
        exact ih true [] hlast' (fun _ => cs_ne_nil_of_ws_head c cs hws hlast)
          (fun h => nomatch h) t ht
      | false =>
        rw [show splitWsM (c :: cs) true acc = splitWsM cs false [c] by simp [splitWsM, hws]] at ht
        exact ih false [c] hlast' (fun h => nomatch h)
          (fun _ hacc => absurd hacc (by simp)) t ht
    | false =>
      cases hws : isWs c with
      | true =>
        rw [show splitWsM (c :: cs) false acc = acc.reverse :: splitWsM cs true [] by
          simp [splitWsM, hws]] at ht
        rcases List.mem_cons.mp ht with h1 | h2
        · subst h1
          have hacc : acc ≠ [] := by
            intro hnil
            have := (hstart rfl hnil).2 c cs rfl
            rw [hws] at this
            exact absurd this (by simp)
          simpa [List.reverse_eq_nil_iff] using hacc
        · exact ih true [] hlast' (fun _ => cs_ne_nil_of_ws_head c cs hws hlast)
            (fun h => nomatch h) t h2
      | false =>
        rw [show splitWsM (c :: cs) false acc = splitWsM cs false (c :: acc) by
          simp [splitWsM, hws]] at ht
        exact ih false (c :: acc) hlast' (fun h => nomatch h)
          (fun _ hacc => absurd hacc (by simp)) t ht

theorem splitWs_trim_all_ne_nil (s : Str) (h : trim s ≠ []) :
    ∀ t ∈ splitWs (trim s), t ≠ [] :=
  splitWsM_all_ne_nil (trim s) false []
    (trim_getLast_not_ws s)
    (fun hb => nomatch hb)
    (fun _ _ => ⟨h, trim_head_not_ws s⟩)

/-! ## Claim C4 -/

/-- Claim C4: the derived conversation title is computed by splitting the
trimmed text on runs of whitespace and discarding empty tokens; with at
most 3 tokens the title is the tokens joined by single spaces and no
ellipsis, with more than 3 tokens it is the first 3 tokens joined by
single spaces followed by a single `…` character, and an empty trim yields
the default placeholder title. -/
theorem buildTitle_token_spec (s : Str) :
    (trim s = [] ↔ tokensOf s = []) ∧
    (tokensOf s = [] → buildTitleFromMessage s = DEFAULT_CHAT_TITLE) ∧
    (tokensOf s ≠ [] → (tokensOf s).length ≤ 3 →
      buildTitleFromMessage s = List.intercalate [' '] (tokensOf s)) ∧
    (3 < (tokensOf s).length →
      buildTitleFromMessage s = List.intercalate [' '] ((tokensOf s).take 3) ++ ['…']) := by
  by_cases htrim : trim s = []
  · have htok : tokensOf s = [] := by
      simp [tokensOf, htrim, splitWs, splitWsM]
    refine ⟨by simp [htrim, htok], fun _ => ?_, fun hne _ => absurd htok hne, fun hgt => ?_⟩
    · simp [buildTitleFromMessage, htrim]
    · rw [htok] at hgt; simp at hgt
  · have hall := splitWs_trim_all_ne_nil s htrim
    have htok : tokensOf s = splitWs (trim s) := by
      unfold tokensOf
      apply List.filter_eq_self.mpr
      intro t ht
      simpa [List.isEmpty_eq_false] using hall t ht
    have hsne : splitWs (trim s) ≠ [] := splitWsM_ne_nil (trim s) false []
    have hbuild : buildTitleFromMessage s =
        (if (splitWs (trim s)).length > 3 then
          List.intercalate [' '] ((splitWs (trim s)).take 3) ++ ['…']
        else List.intercalate [' '] ((splitWs (trim s)).take 3)) := by
      simp only [buildTitleFromMessage]
      rw [if_neg htrim]
    refine ⟨⟨fun h => absurd h htrim, fun h => absurd (htok ▸ h) hsne⟩,
      fun h => absurd (htok ▸ h) hsne, fun _ hlen => ?_, fun hgt => ?_⟩
    · rw [htok] at hlen ⊢
      rw [hbuild, if_neg (by omega), List.take_of_length_le hlen]
    · rw [htok] at hgt ⊢
      rw [hbuild, if_pos hgt]

/-- Witness for C4 at the spec's own example: "one two three four" has 4
tokens, so the title is the first three joined with spaces plus `…`. -/
theorem buildTitle_token_spec_witness :
    3 < (tokensOf "one two three four".data).length ∧
    buildTitleFromMessage "one two three four".data =
      List.intercalate [' '] ((tokensOf "one two three four".data).take 3) ++ ['…'] :=
  ⟨by decide, (buildTitle_token_spec "one two three four".data).2.2.2 (by decide)⟩

/-! ## Claim C3 -/

theorem toggleReactionMessage_id (m : Message) (mid : Str) (k : ReactionKind) :
    (toggleReactionMessage m mid k).id = m.id := by
  unfold toggleReactionMessage
  split
  · rfl
  · cases k <;> rfl

theorem toggleReactionMessage_role (m : Message) (mid : Str) (k : ReactionKind) :
    (toggleReactionMessage m mid k).role = m.role := by
  unfold toggleReactionMessage
  split
  · rfl
  · cases k <;> rfl

theorem toggleReactionMessage_excl (m : Message) (mid : Str) (k : ReactionKind)
    (hid : m.id = mid) (hrole : m.role = Role.assistant) :
    ¬((toggleReactionMessage m mid k).liked = true ∧
      (toggleReactionMessage m mid k).disliked = true) := by
  unfold toggleReactionMessage
  rw [if_neg (by push_neg; exact ⟨hid, hrole⟩)]
  cases k <;> cases hl : m.liked <;> cases hd : m.disliked <;> simp [hl, hd]

theorem applyToggles_cons (m : Message) (mid : Str) (k : ReactionKind) (ks : List ReactionKind) :
    applyToggles m mid (k :: ks) = applyToggles (toggleReactionMessage m mid k) mid ks := rfl

theorem applyToggles_append (m : Message) (mid : Str) (p q : List ReactionKind) :
    applyToggles m mid (p ++ q) = applyToggles (applyToggles m mid p) mid q :=
  List.foldl_append _ _ p q

theorem applyToggles_id (m : Message) (mid : Str) :
    ∀ ks : List ReactionKind, (applyToggles m mid ks).id = m.id := by
  intro ks
  induction ks generalizing m with
  | nil => rfl
  | cons k ks ih => rw [applyToggles_cons, ih, toggleReactionMessage_id]

theorem applyToggles_role (m : Message) (mid : Str) :
    ∀ ks : List ReactionKind, (applyToggles m mid ks).role = m.role := by
  intro ks
  induction ks generalizing m with
  | nil => rfl
  | cons k ks ih => rw [applyToggles_cons, ih, toggleReactionMessage_role]

/-- Claim C3: for every assistant message and every finite sequence of
`toggleReaction` calls applied to it, after any call `liked` and
`disliked` are never both true; each toggle flips the targeted flag,
forces the opposite flag to false when the result is true, and toggling an
already-true flag sets it to false. -/
theorem toggleReaction_mutual_exclusion (m : Message) (hrole : m.role = Role.assistant)
    (ks : List ReactionKind) :
    (∀ p k, (p ++ [k]) <+: ks →
      ¬((applyToggles m m.id (p ++ [k])).liked = true ∧
        (applyToggles m m.id (p ++ [k])).disliked = true)) ∧
    ((toggleReactionMessage m m.id ReactionKind.like).liked = !m.liked) ∧
    ((toggleReactionMessage m m.id ReactionKind.dislike).disliked = !m.disliked) ∧
    ((toggleReactionMessage m m.id ReactionKind.like).liked = true →
      (toggleReactionMessage m m.id ReactionKind.like).disliked = false) ∧
    ((toggleReactionMessage m m.id ReactionKind.dislike).disliked = true →
      (toggleReactionMessage m m.id ReactionKind.dislike).liked = false) ∧
    (m.liked = true → (toggleReactionMessage m m.id ReactionKind.like).liked = false) ∧
    (m.disliked = true → (toggleReactionMessage m m.id ReactionKind.dislike).disliked = false) := by
  have hneg : ¬(m.id ≠ m.id ∨ m.role ≠ Role.assistant) := by push_neg; exact ⟨rfl, hrole⟩
  refine ⟨fun p k _ => ?_, ?_, ?_, ?_, ?_, ?_, ?_⟩
  · rw [applyToggles_append]
    exact toggleReactionMessage_excl (applyToggles m m.id p) m.id k
      (applyToggles_id m m.id p) ((applyToggles_role m m.id p).trans hrole)
  all_goals unfold toggleReactionMessage
  all_goals rw [if_neg hneg]
  all_goals cases hl : m.liked <;> cases hd : m.disliked <;> simp [hl, hd]

/-- Witness for C3: a concrete assistant message and the call sequence
[like, dislike]; after the first call the flags are not both true. -/
theorem toggleReaction_mutual_exclusion_witness :
    ¬((applyToggles mEx mEx.id ([] ++ [ReactionKind.like])).liked = true ∧
      (applyToggles mEx mEx.id ([] ++ [ReactionKind.like])).disliked = true) :=
  (toggleReaction_mutual_exclusion mEx rfl [ReactionKind.like, ReactionKind.dislike]).1
    [] ReactionKind.like ⟨[ReactionKind.dislike], rfl⟩

/-! ## Claim C1 -/

theorem sendMessageChat_skip (chat : Chat) (convId trimmed uid aid : Str) (now : Nat)
    (h : chat.id ≠ convId) : sendMessageChat chat convId trimmed uid aid now = chat := by
  unfold sendMessageChat
  rw [if_pos h]

theorem sendMessageChat_messages (chat : Chat) (convId trimmed uid aid : Str) (now : Nat)
    (h : chat.id = convId) :
    (sendMessageChat chat convId trimmed uid aid now).messages
      = chat.messages ++ [mkUserMessage uid trimmed now, createAssistantMessage aid now] := by
  unfold sendMessageChat
  rw [if_neg (not_not_intro h)]

/-- Claim C1: for every conversation and every input with non-empty trim,
`sendMessage` appends exactly two messages at the end of that
conversation's list — a complete user message carrying the trimmed text,
then a pending assistant message with empty content — leaving every prior
message unchanged; when the trim is empty or no conversation matches the
id, the collection is left unchanged. -/
theorem sendMessage_appends_pair (chats : List Chat) (convId input uid aid : Str) (now : Nat) :
    (trim input = [] → sendMessage chats convId input uid aid now = chats) ∧
    ((∀ chat ∈ chats, chat.id ≠ convId) → sendMessage chats convId input uid aid now = chats) ∧
    (trim input ≠ [] →
      (sendMessage chats convId input uid aid now).length = chats.length ∧
      ∀ (i : Nat) (chat : Chat), chats[i]? = some chat →
        ∃ chat' : Chat, (sendMessage chats convId input uid aid now)[i]? = some chat' ∧
          (chat.id ≠ convId → chat' = chat) ∧
          (chat.id = convId →
            ∃ u a : Message, chat'.messages = chat.messages ++ [u, a] ∧
              u.role = Role.user ∧ u.status = Status.done ∧
              u.content = trim input ∧ u.liked = false ∧ u.disliked = false ∧
              a.role = Role.assistant ∧ a.status = Status.thinking ∧
              a.content = [] ∧ a.liked = false ∧ a.disliked = false ∧
              ∀ j, j < chat.messages.length → chat'.messages[j]? = chat.messages[j]?)) := by
  refine ⟨fun h => by simp [sendMessage, h], fun hnone => ?_, fun hne => ⟨?_, ?_⟩⟩
  · by_cases h : trim input = []
    · simp [sendMessage, h]
    · unfold sendMessage
      rw [if_neg h]
      rw [List.map_congr_left
        (fun chat hc => sendMessageChat_skip chat convId (trim input) uid aid now (hnone chat hc))]
      exact List.map_id' chats
  · unfold sendMessage
    rw [if_neg hne, List.length_map]
  · intro i chat h
    unfold sendMessage
    rw [if_neg hne, List.getElem?_map, h]
    refine ⟨sendMessageChat chat convId (trim input) uid aid now, rfl,
      fun hid => sendMessageChat_skip chat convId (trim input) uid aid now hid,
      fun hid => ?_⟩
    have hmsg := sendMessageChat_messages chat convId (trim input) uid aid now hid
    refine ⟨mkUserMessage uid (trim input) now, createAssistantMessage aid now, hmsg,
      rfl, rfl, rfl, rfl, rfl, rfl, rfl, rfl, rfl, rfl, fun j hj => ?_⟩
    rw [hmsg, List.getElem?_append, if_pos hj]

/-- Witness for C1: a concrete chat and input "  hi  " whose trim is
non-empty; the collection keeps its length and the target chat gets the
two messages. -/
theorem sendMessage_appends_pair_witness :
    trim "  hi  ".data ≠ [] ∧
    (sendMessage [chatEx] cidEx "  hi  ".data uidEx aidEx 9).length = [chatEx].length :=
  ⟨by decide,
    ((sendMessage_appends_pair [chatEx] cidEx "  hi  ".data uidEx aidEx 9).2.2 (by decide)).1⟩

/-! ## Claim C5 -/

/-- Claim C5: for every existing assistant message, a regenerate resets
its content to empty, its status to pending, its liked/disliked flags to
false, strictly increases its version, and schedules a fresh resolution
for that message; other chats and other messages are untouched. -/
theorem handleRegenerate_resets (s : Sys) (cid mid : Str) :
    ((handleRegenerate s cid mid).pendingTimers = s.pendingTimers ++ [(cid, mid)]) ∧
    ((handleRegenerate s cid mid).chats.length = s.chats.length) ∧
    (∀ (i : Nat) (chat : Chat), s.chats[i]? = some chat →
      ∃ chat' : Chat, (handleRegenerate s cid mid).chats[i]? = some chat' ∧
        (chat.id ≠ cid → chat' = chat) ∧
        (chat.id = cid →
          chat'.messages.length = chat.messages.length ∧
          ∀ (j : Nat) (m : Message), chat.messages[j]? = some m →
            ∃ m' : Message, chat'.messages[j]? = some m' ∧
              (m.id ≠ mid → m' = m) ∧
              (m.id = mid → m.role = Role.assistant →
                m'.content = [] ∧ m'.status = Status.thinking ∧
                m'.liked = false ∧ m'.disliked = false ∧
                m'.version = m.version + 1 ∧ m.version < m'.version))) := by
  refine ⟨rfl, by simp [handleRegenerate, handleRegenerateChats], fun i chat h => ?_⟩
  show ∃ chat' : Chat, (handleRegenerateChats s.chats cid mid)[i]? = some chat' ∧ _
  unfold handleRegenerateChats
  rw [List.getElem?_map, h]
  simp only [Option.map_some']
  by_cases hid : chat.id = cid
  · rw [if_neg (not_not_intro hid)]
    refine ⟨_, rfl, fun hne => absurd hid hne, fun _ => ⟨by simp, fun j m hm => ?_⟩⟩
    show ∃ m' : Message, (chat.messages.map (fun m => regenerateMessage m mid))[j]? = some m' ∧ _
    rw [List.getElem?_map, hm]
    simp only [Option.map_some']
    by_cases hmid : m.id = mid
    · refine ⟨_, rfl, fun hne => absurd hmid hne, fun _ _ => ?_⟩
      unfold regenerateMessage
      rw [if_pos hmid]
      exact ⟨rfl, rfl, rfl, rfl, rfl, Nat.lt_succ_self m.version⟩
    · refine ⟨_, rfl, fun _ => ?_, fun hmid' _ => absurd hmid' hmid⟩
      unfold regenerateMessage
      rw [if_neg hmid]
  · rw [if_pos hid]
    exact ⟨chat, rfl, fun _ => rfl, fun hid' => absurd hid' hid⟩

/-- Witness for C5: regenerating the concrete assistant message `mEx`
inside `chatEx` resets it and bumps its version from 1 to 2. -/
theorem handleRegenerate_resets_witness :
    (handleRegenerate { chats := [chatEx], pendingTimers := [] } cidEx "m".data).pendingTimers
      = [] ++ [(cidEx, "m".data)] :=
  (handleRegenerate_resets { chats := [chatEx], pendingTimers := [] } cidEx "m".data).1

/-! ## Claim C9 -/

/-- Claim C9: `renameConversation` sets the target's title to the trimmed
proposed title, or the default placeholder when the trim is empty, sets
`isCustomTitle` to true unconditionally, and applying it twice with the
same proposed title equals applying it once. -/
theorem commitRenameChats_spec (chats : List Chat) (cid p : Str) :
    ((commitRenameChats chats cid p).length = chats.length) ∧
    (∀ (i : Nat) (chat : Chat), chats[i]? = some chat →
      ∃ chat' : Chat, (commitRenameChats chats cid p)[i]? = some chat' ∧
        (chat.id = cid →
          chat'.title = (if trim p = [] then DEFAULT_CHAT_TITLE else trim p) ∧
          chat'.isCustomTitle = true) ∧
        (chat.id ≠ cid → chat' = chat)) ∧
    (commitRenameChats (commitRenameChats chats cid p) cid p = commitRenameChats chats cid p) := by
  refine ⟨by simp [commitRenameChats], fun i chat h => ?_, ?_⟩
  · show ∃ chat' : Chat, _
    unfold commitRenameChats
    rw [List.getElem?_map, h]
    simp only [Option.map_some']
    by_cases hid : chat.id = cid
    · rw [if_pos hid]
      exact ⟨_, rfl, fun _ => ⟨rfl, rfl⟩, fun hne => absurd hid hne⟩
    · rw [if_neg hid]
      exact ⟨chat, rfl, fun hid' => absurd hid' hid, fun _ => rfl⟩
  · unfold commitRenameChats
    rw [List.map_map]
    apply List.map_congr_left
    intro chat _
    by_cases hid : chat.id = cid <;> simp [hid]

/-- Witness for C9 at a concrete chat and proposed title "  Dad  ". -/
theorem commitRenameChats_spec_witness :
    chatEx.id = cidEx ∧
    ∃ chat' : Chat, (commitRenameChats [chatEx] cidEx "  Dad  ".data)[0]? = some chat' ∧
      (chatEx.id = cidEx →
        chat'.title = (if trim "  Dad  ".data = [] then DEFAULT_CHAT_TITLE
          else trim "  Dad  ".data) ∧
        chat'.isCustomTitle = true) ∧
      (chatEx.id ≠ cidEx → chat' = chatEx) :=
  ⟨by decide, (commitRenameChats_spec [chatEx] cidEx "  Dad  ".data).2.1 0 chatEx (by decide)⟩

/-! ## Claim C10 -/

theorem commitRename_none (s : Store) (chatId : Str) (h : s.editingChatId = none) :
    commitRename s chatId = s := by
  unfold commitRename
  rw [h]

theorem commitRename_some_ne (s : Store) (chatId eid : Str)
    (h : s.editingChatId = some eid) (hne : eid ≠ chatId) : commitRename s chatId = s := by
  unfold commitRename
  rw [h]
  simp [hne]

theorem commitRename_some_eq (s : Store) (chatId eid : Str)
    (h : s.editingChatId = some eid) (heq : eid = chatId) :
    commitRename s chatId =
      { s with
        chats := commitRenameChats s.chats eid s.renameValue
        editingChatId := none
        renameValue := [] } := by
  unfold commitRename
  rw [h]
  simp [heq]

/-- Claim C10: `renameConversation` modifies only the targeted chat's
`title` and `isCustomTitle`: the target's messages, `createdAt` and
`updatedAt` are unchanged, every other chat is unchanged, and the
active-conversation selection is unchanged. -/
theorem commitRename_frame (s : Store) (chatId : Str) :
    ((commitRename s chatId).activeChatId = s.activeChatId) ∧
    ((commitRename s chatId).chats.length = s.chats.length) ∧
    (∀ (i : Nat) (chat : Chat), s.chats[i]? = some chat →
      ∃ chat' : Chat, (commitRename s chatId).chats[i]? = some chat' ∧
        chat'.id = chat.id ∧
        chat'.messages = chat.messages ∧
        chat'.createdAt = chat.createdAt ∧
        chat'.updatedAt = chat.updatedAt ∧
        (chat.id ≠ chatId → chat' = chat)) := by
  cases he : s.editingChatId with
  | none =>
    rw [commitRename_none s chatId he]
    exact ⟨rfl, rfl, fun i chat h => ⟨chat, h, rfl, rfl, rfl, rfl, fun _ => rfl⟩⟩
  | some eid =>
    by_cases hne : eid ≠ chatId
    · rw [commitRename_some_ne s chatId eid he hne]
      exact ⟨rfl, rfl, fun i chat h => ⟨chat, h, rfl, rfl, rfl, rfl, fun _ => rfl⟩⟩
    · have heq : eid = chatId := not_not.mp hne
      rw [commitRename_some_eq s chatId eid he heq]
      refine ⟨rfl, by simp [commitRenameChats], fun i chat h => ?_⟩
      show ∃ chat' : Chat, (commitRenameChats s.chats eid s.renameValue)[i]? = some chat' ∧ _
      unfold commitRenameChats
      rw [List.getElem?_map, h]
      simp only [Option.map_some']
      by_cases hid : chat.id = eid
      · rw [if_pos hid]
        exact ⟨_, rfl, rfl, rfl, rfl, rfl, fun hne' => absurd (heq ▸ hid) hne'⟩
      · rw [if_neg hid]
        exact ⟨chat, rfl, rfl, rfl, rfl, rfl, fun _ => rfl⟩

/-- Witness for C10 at the concrete editing store `storeEx`. -/
theorem commitRename_frame_witness :
    (commitRename storeEx cidEx).activeChatId = storeEx.activeChatId ∧
    ∃ chat' : Chat, (commitRename storeEx cidEx).chats[0]? = some chat' ∧
      chat'.id = chatEx.id ∧
      chat'.messages = chatEx.messages ∧
      chat'.createdAt = chatEx.createdAt ∧
      chat'.updatedAt = chatEx.updatedAt ∧
      (chatEx.id ≠ cidEx → chat' = chatEx) :=
  ⟨(commitRename_frame storeEx cidEx).1,
    (commitRename_frame storeEx cidEx).2.2 0 chatEx (by decide)⟩

/-! ## Claim C6 -/

/-- Claim C6: on load, an absent, malformed, or empty persisted value
yields exactly one freshly created default conversation and never an
error (the result is always a non-empty collection); for successfully
deserialized data, the missing optional fields `isCustomTitle`, `liked`,
`disliked`, `status`, `version` default to false, false, false,
done (the spec's complete) and 0 respectively, and every present field is
kept as persisted. -/
theorem loadChats_spec (fresh : Chat) (parsed : List PersistedChat) :
    (loadChats Persisted.absent fresh = [fresh]) ∧
    (loadChats Persisted.malformed fresh = [fresh]) ∧
    (loadChats (Persisted.value []) fresh = [fresh]) ∧
    (∀ saved : Persisted, loadChats saved fresh ≠ []) ∧
    (parsed ≠ [] →
      (loadChats (Persisted.value parsed) fresh).length = parsed.length ∧
      ∀ (i : Nat) (pc : PersistedChat), parsed[i]? = some pc →
        ∃ c : Chat, (loadChats (Persisted.value parsed) fresh)[i]? = some c ∧
          c.id = pc.id ∧ c.title = pc.title ∧
          c.createdAt = pc.createdAt ∧ c.updatedAt = pc.updatedAt ∧
          (pc.isCustomTitle = none → c.isCustomTitle = false) ∧
          (∀ b : Bool, pc.isCustomTitle = some b → c.isCustomTitle = b) ∧
          c.messages.length = pc.messages.length ∧
          ∀ (j : Nat) (pm : PersistedMessage), pc.messages[j]? = some pm →
            ∃ m : Message, c.messages[j]? = some m ∧
              m.id = pm.id ∧ m.role = pm.role ∧ m.content = pm.content ∧
              m.createdAt = pm.createdAt ∧
              (pm.liked = none → m.liked = false) ∧
              (∀ b : Bool, pm.liked = some b → m.liked = b) ∧
              (pm.disliked = none → m.disliked = false) ∧
              (∀ b : Bool, pm.disliked = some b → m.disliked = b) ∧
              (pm.status = none → m.status = Status.done) ∧
              (∀ st : Status, pm.status = some st → m.status = st) ∧
              (pm.version = none → m.version = 0) ∧
              (∀ v : Nat, pm.version = some v → m.version = v)) := by
  refine ⟨rfl, rfl, rfl, fun saved => ?_, fun hne => ⟨?_, fun i pc h => ?_⟩⟩
  · cases saved with
    | absent => simp [loadChats]
    | malformed => simp [loadChats]
    | value parsed' =>
      by_cases hp : parsed' = [] <;> simp [loadChats, hp]
  · show (if parsed = [] then [fresh] else parsed.map defaultChat).length = parsed.length
    rw [if_neg hne, List.length_map]
  · show ∃ c : Chat, (if parsed = [] then [fresh] else parsed.map defaultChat)[i]? = some c ∧ _
    rw [if_neg hne, List.getElem?_map, h]
    simp only [Option.map_some']
    refine ⟨defaultChat pc, rfl, rfl, rfl, rfl, rfl,
      fun hn => by simp [defaultChat, hn],
      fun b hb => by simp [defaultChat, hb],
      by simp [defaultChat],
      fun j pm hm => ?_⟩
    show ∃ m : Message, (pc.messages.map defaultMessage)[j]? = some m ∧ _
    rw [List.getElem?_map, hm]
    simp only [Option.map_some']
    refine ⟨defaultMessage pm, rfl, rfl, rfl, rfl, rfl,
      fun hn => by simp [defaultMessage, hn],
      fun b hb => by simp [defaultMessage, hb],
      fun hn => by simp [defaultMessage, hn],
      fun b hb => by simp [defaultMessage, hb],
      fun hn => by simp [defaultMessage, hn],
      fun st hst => by simp [defaultMessage, hst],
      fun hn => by simp [defaultMessage, hn],
      fun v hv => by simp [defaultMessage, hv]⟩

/-- Witness for C6: a concrete persisted chat with `isCustomTitle`,
`liked` and `status` absent. -/
theorem loadChats_spec_witness :
    ([pcEx] : List PersistedChat) ≠ [] ∧
    (loadChats (Persisted.value [pcEx]) (createChat cidEx 0)).length = ([pcEx] : List PersistedChat).length :=
  ⟨by decide, ((loadChats_spec (createChat cidEx 0) [pcEx]).2.2.2.2 (by decide)).1⟩

/-! ## Claim C7 (corrected) -/

/-- Counterexample to C7 as stated: on a concrete chat with
`updatedAt = 5`, `toggleReaction` mutates the message list (the like flag
flips) yet leaves `updatedAt` at 5 — so not every message-list mutation
refreshes the timestamp. -/
theorem toggleReaction_updatedAt_counterexample :
    ((toggleReactionChats [chatEx] cidEx "m".data ReactionKind.like).head?.map Chat.updatedAt
      = some chatEx.updatedAt) ∧
    ((toggleReactionChats [chatEx] cidEx "m".data ReactionKind.like).head?.map Chat.messages
      ≠ some chatEx.messages) := by decide

/-- Claim C7 amended: `sendMessage` and the scheduled reply resolution
refresh the target conversation's `updatedAt` to the current time, while
a reaction toggle and a regenerate mutate the message list but leave
every conversation's `updatedAt` unchanged. -/
theorem updatedAt_refresh_spec (chats : List Chat) (convId input uid aid mid : Str)
    (now : Nat) (k : ReactionKind) :
    (trim input ≠ [] →
      ∀ (i : Nat) (chat : Chat), chats[i]? = some chat → chat.id = convId →
        ∃ chat' : Chat, (sendMessage chats convId input uid aid now)[i]? = some chat' ∧
          chat'.updatedAt = now) ∧
    (∀ (i : Nat) (chat : Chat), chats[i]? = some chat → chat.id = convId →
      ∃ chat' : Chat, (resolveAssistantChats chats convId mid now)[i]? = some chat' ∧
        chat'.updatedAt = now) ∧
    (∀ (i : Nat) (chat : Chat), chats[i]? = some chat →
      ∃ chat' : Chat, (toggleReactionChats chats convId mid k)[i]? = some chat' ∧
        chat'.updatedAt = chat.updatedAt) ∧
    (∀ (i : Nat) (chat : Chat), chats[i]? = some chat →
      ∃ chat' : Chat, (handleRegenerateChats chats convId mid)[i]? = some chat' ∧
        chat'.updatedAt = chat.updatedAt) := by
  refine ⟨fun hne i chat h hid => ?_, fun i chat h hid => ?_,
    fun i chat h => ?_, fun i chat h => ?_⟩
  · unfold sendMessage
    rw [if_neg hne, List.getElem?_map, h]
    simp only [Option.map_some']
    refine ⟨_, rfl, ?_⟩
    unfold sendMessageChat
    rw [if_neg (not_not_intro hid)]
  · unfold resolveAssistantChats
    rw [List.getElem?_map, h]
    simp only [Option.map_some']
    rw [if_neg (not_not_intro hid)]
    exact ⟨_, rfl, rfl⟩
  · unfold toggleReactionChats
    rw [List.getElem?_map, h]
    simp only [Option.map_some']
    by_cases hid : chat.id = convId
    · rw [if_neg (not_not_intro hid)]
      exact ⟨_, rfl, rfl⟩
    · rw [if_pos hid]
      exact ⟨chat, rfl, rfl⟩
  · unfold handleRegenerateChats
    rw [List.getElem?_map, h]
    simp only [Option.map_some']
    by_cases hid : chat.id = convId
    · rw [if_neg (not_not_intro hid)]
      exact ⟨_, rfl, rfl⟩
    · rw [if_pos hid]
      exact ⟨chat, rfl, rfl⟩

/-- Witness for the amended C7: the resolution on `chatEx` stamps
`updatedAt` with the passed time. -/
theorem updatedAt_refresh_spec_witness :
    ∃ chat' : Chat, (resolveAssistantChats [chatEx] cidEx "m".data 42)[0]? = some chat' ∧
      chat'.updatedAt = 42 :=
  (updatedAt_refresh_spec [chatEx] cidEx "x".data uidEx aidEx "m".data 42
    ReactionKind.like).2.1 0 chatEx (by decide) (by decide)

/-! ## Claim C2 (code bug) -/

/-- Claim C2 fails on the code: `handleRegenerate` never cancels the
timer scheduled before it (`timersRef.current[messageId] = timer` merely
overwrites the stored handle) and the resolution callback compares no
version, so the stale pre-regenerate resolution still fires and mutates
the superseded message. Concretely: send, then regenerate before the
first resolution fires — two resolutions are pending for the same message
id, and firing the earlier (stale) one flips the regenerated message from
pending back to done with the canned reply, bumping its version to 2. -/
theorem regenerate_stale_resolution_mutates :
    (sysAfterRegen.pendingTimers = [(cidEx, aidEx), (cidEx, aidEx)]) ∧
    (sysAfterRegen.chats.head?.map (fun c => c.messages.map Message.status)
      = some [Status.done, Status.thinking]) ∧
    (sysAfterRegen.chats.head?.map (fun c => c.messages.map Message.version)
      = some [0, 1]) ∧
    (sysAfterStale.chats.head?.map (fun c => c.messages.map Message.status)
      = some [Status.done, Status.done]) ∧
    (sysAfterStale.chats.head?.map (fun c => c.messages.map Message.content)
      = some ["hi".data, ASSISTANT_REPLY]) ∧
    (sysAfterStale.chats.head?.map (fun c => c.messages.map Message.version)
      = some [0, 2]) := by decide

/-! ## Claim C8 (corrected) -/

/-- Counterexample to C8 as stated: immediately after
`sendMessage(id, "  hello world  ")` the conversation's title is already
"hello world", not the unchanged default "New chat" — the derived title
is applied by the send itself, not after the reply resolves. -/
theorem send_title_updates_immediately :
    (chatsAfterSend.head?.map Chat.title = some ("hello world".data)) ∧
    ("hello world".data ≠ DEFAULT_CHAT_TITLE) := by decide

/-- Claim C8 amended: from an empty store, after `createConversation()`
and `sendMessage(id, "  hello world  ")`, the conversation's title is
already "hello world" (with no ellipsis) and its messages are exactly
[user "hello world" complete, assistant pending with empty content];
after the scheduled delay elapses the assistant message has content
"ok 👍" and status complete and the title remains "hello world". -/
theorem send_scenario_spec :
    (chatsAfterSend.head?.map Chat.title = some ("hello world".data)) ∧
    (chatsAfterSend.head?.map (fun c => c.messages.map (fun m => (m.role, m.content, m.status)))
      = some [(Role.user, "hello world".data, Status.done),
              (Role.assistant, [], Status.thinking)]) ∧
    (chatsAfterResolve.head?.map (fun c => c.messages.map (fun m => (m.role, m.content, m.status)))
      = some [(Role.user, "hello world".data, Status.done),
              (Role.assistant, ASSISTANT_REPLY, Status.done)]) ∧
    (chatsAfterResolve.head?.map Chat.title = some ("hello world".data)) ∧
    ('…' ∉ "hello world".data) := by decide

end DadGPT
